import Mathlib

/-!
Verification of a BitTorrent client (codecrafters-bittorrent-rust).

Shallow embedding of the program's data model and operations:
bytes are `Nat` values below 256, byte strings are `List Nat`,
machine integers are `Nat` with explicit wrapping where the source casts.
Fallible operations return explicit outcome types; Rust panics
(out-of-bounds indexing, assertion failures) are modelled as a
distinguished `panic` outcome.
-/

namespace BitTorrent

/-! ## Big-endian byte helpers (the `bytes` crate's `put_u32`, `u32::from_be_bytes`) -/

/-- Big-endian 4-byte encoding of a `u32` value, as produced by `BufMut::put_u32`. -/
def u32be (n : Nat) : List Nat :=
  [n / 16777216 % 256, n / 65536 % 256, n / 256 % 256, n % 256]

/-- Big-endian 2-byte encoding of a `u16` value, as produced by `u16::to_be_bytes`. -/
def u16be (n : Nat) : List Nat :=
  [n / 256 % 256, n % 256]

/-- Value of the first four bytes of a list read big-endian, as
`u32::from_be_bytes` does on a 4-byte slice.  Defaults to 0 when fewer than
four bytes are present; every use site guards the length first. -/
def readU32 : List Nat → Nat
  | a :: b :: c :: d :: _ => a * 16777216 + b * 65536 + c * 256 + d
  | _ => 0

/-- Value of the first two bytes read big-endian (`u16::from_be_bytes`). -/
def readU16 : List Nat → Nat
  | a :: b :: _ => a * 256 + b
  | _ => 0

/-! ## Peer wire messages (`src/peer.rs`, `enum PeerMessage`) -/

/-- The nine peer-wire message variants of `PeerMessage` in `src/peer.rs`.
`u32` fields are `Nat`s kept below `2^32`; payload byte strings are `List Nat`. -/
inductive PeerMessage where
  | choke
  | unChoke
  | interested
  | notInterested
  | have (piece_index : Nat)
  | bitfield (fields : List Nat)
  | request (piece_index offset length : Nat)
  | piece (piece_index offset : Nat) (piece : List Nat)
  | cancel (piece_index offset length : Nat)
  deriving DecidableEq, Repr

/-- `impl From<PeerMessage> for Vec<u8>`: 1-byte type code followed by the
variant body, all multi-byte integers big-endian (`put_u32`). -/
def encodeMessage : PeerMessage → List Nat
  | .choke => [0]
  | .unChoke => [1]
  | .interested => [2]
  | .notInterested => [3]
  | .have piece_index => 4 :: u32be piece_index
  | .bitfield fields => 5 :: fields
  | .request piece_index offset length =>
      6 :: (u32be piece_index ++ u32be offset ++ u32be length)
  | .piece piece_index offset piece =>
      7 :: (u32be piece_index ++ u32be offset ++ piece)
  | .cancel piece_index offset length =>
      8 :: (u32be piece_index ++ u32be offset ++ u32be length)

/-- Result of `TryFrom<&[u8]> for PeerMessage`.  The source indexes the
payload without bounds checks (`value[offset..offset + 4]`), so inputs
shorter than a variant's fixed fields abort the process; that outcome is
the `panic` constructor. -/
inductive DecodeResult where
  | ok (m : PeerMessage)
  | err (code : Nat)
  | panic
  deriving DecidableEq, Repr

/-- `impl TryFrom<&[u8]> for PeerMessage` in `src/peer.rs`: reads the type
code at `value[0]` (panics on an empty slice), then the fixed big-endian
fields by unchecked slice indexing (panics when the payload is shorter than
the fields), the trailing bytes raw; an unknown code is `Err(UnknownCode)`. -/
def decodeMessage (value : List Nat) : DecodeResult :=
  match value with
  | [] => .panic
  | code :: rest =>
    match code with
    | 0 => .ok .choke
    | 1 => .ok .unChoke
    | 2 => .ok .interested
    | 3 => .ok .notInterested
    | 4 =>
      if 4 ≤ rest.length then .ok (.have (readU32 rest)) else .panic
    | 5 => .ok (.bitfield rest)
    | 6 =>
      if 12 ≤ rest.length then
        .ok (.request (readU32 rest) (readU32 (rest.drop 4)) (readU32 (rest.drop 8)))
      else .panic
    | 7 =>
      if 8 ≤ rest.length then
        .ok (.piece (readU32 rest) (readU32 (rest.drop 4)) (rest.drop 8))
      else .panic
    | 8 =>
      if 12 ≤ rest.length then
        .ok (.cancel (readU32 rest) (readU32 (rest.drop 4)) (readU32 (rest.drop 8)))
      else .panic
    | c => .err c

/-- `receive_message` reads a 4-byte length prefix, then exactly that many
payload bytes, and hands the payload to the `TryFrom` decoder; a decoder
panic propagates.  Modelled on the payload it has read. -/
def receiveMessage (payload : List Nat) : DecodeResult :=
  decodeMessage payload

/-- All `u32`-typed fields of a message are in range. -/
def wfMessage : PeerMessage → Prop
  | .have piece_index => piece_index < 4294967296
  | .request piece_index offset length =>
      piece_index < 4294967296 ∧ offset < 4294967296 ∧ length < 4294967296
  | .piece piece_index offset _ =>
      piece_index < 4294967296 ∧ offset < 4294967296
  | .cancel piece_index offset length =>
      piece_index < 4294967296 ∧ offset < 4294967296 ∧ length < 4294967296
  | _ => True

instance : DecidablePred wfMessage := by
  intro m
  cases m <;> simp only [wfMessage] <;> infer_instance

/-! ## SHA-1 (the `sha1` crate: `Sha1::new / update / finalize`)

Modelled from the SHA-1 standard (FIPS 180-1) that the external `sha1`
crate implements: 512-bit blocks, 80 rounds, 160-bit big-endian digest.
All words are `Nat`s reduced modulo `2^32`. -/

/-- Rotate a 32-bit word left by `n` bits. -/
def rotl (n x : Nat) : Nat := (x <<< n ||| x >>> (32 - n)) % 4294967296

/-- Group bytes into big-endian 32-bit words (complete groups of four). -/
def bytesToWords : List Nat → List Nat
  | a :: b :: c :: d :: rest =>
      (a * 16777216 + b * 65536 + c * 256 + d) :: bytesToWords rest
  | _ => []

/-- Extend the 16 block words by `k` further schedule words,
`w[i] = rotl1 (w[i-3] xor w[i-8] xor w[i-14] xor w[i-16])`. -/
def sha1Extend (w : List Nat) : Nat → List Nat
  | 0 => w
  | k + 1 =>
      let n := w.length
      let x := rotl 1 ((w.getD (n - 3) 0) ^^^ (w.getD (n - 8) 0) ^^^
        (w.getD (n - 14) 0) ^^^ (w.getD (n - 16) 0))
      sha1Extend (w ++ [x]) k

/-- Round function: choice, parity, majority, parity. -/
def sha1F (i b c d : Nat) : Nat :=
  if i < 20 then (b &&& c) ||| ((b ^^^ 4294967295) &&& d)
  else if i < 40 then b ^^^ c ^^^ d
  else if i < 60 then (b &&& c) ||| (b &&& d) ||| (c &&& d)
  else b ^^^ c ^^^ d

/-- Round constants. -/
def sha1K (i : Nat) : Nat :=
  if i < 20 then 1518500249
  else if i < 40 then 1859775393
  else if i < 60 then 2400959708
  else 3395469782

/-- The 80 compression rounds over the schedule words. -/
def sha1Rounds : List Nat → Nat → Nat × Nat × Nat × Nat × Nat → Nat × Nat × Nat × Nat × Nat
  | [], _, st => st
  | w :: ws, i, (a, b, c, d, e) =>
      let t := (rotl 5 a + sha1F i b c d + e + sha1K i + w) % 4294967296
      sha1Rounds ws (i + 1) (t, a, rotl 30 b, c, d)

/-- Compress one 64-byte block into the running state. -/
def sha1Block (block : List Nat) (h : Nat × Nat × Nat × Nat × Nat) :
    Nat × Nat × Nat × Nat × Nat :=
  let w := sha1Extend (bytesToWords block) 64
  let s := sha1Rounds w 0 h
  ((h.1 + s.1) % 4294967296,
   (h.2.1 + s.2.1) % 4294967296,
   (h.2.2.1 + s.2.2.1) % 4294967296,
   (h.2.2.2.1 + s.2.2.2.1) % 4294967296,
   (h.2.2.2.2 + s.2.2.2.2) % 4294967296)

/-- Fold the compression over consecutive 64-byte blocks (fuel-driven). -/
def sha1Chunks (fuel : Nat) (msg : List Nat) (h : Nat × Nat × Nat × Nat × Nat) :
    Nat × Nat × Nat × Nat × Nat :=
  match fuel, msg with
  | _, [] => h
  | 0, _ => h
  | f + 1, m => sha1Chunks f (m.drop 64) (sha1Block (m.take 64) h)

/-- Big-endian 8-byte encoding of a 64-bit value. -/
def u64be (n : Nat) : List Nat :=
  [n / 72057594037927936 % 256, n / 281474976710656 % 256,
   n / 1099511627776 % 256, n / 4294967296 % 256,
   n / 16777216 % 256, n / 65536 % 256, n / 256 % 256, n % 256]

/-- Merkle–Damgård padding: `0x80`, zeros to 56 mod 64, 8-byte bit length. -/
def sha1Pad (msg : List Nat) : List Nat :=
  let L := msg.length
  let k := (120 - (L + 1) % 64) % 64
  msg ++ 128 :: List.replicate k 0 ++ u64be (8 * L)

/-- SHA-1 digest of a byte string: 20 bytes, big-endian state words. -/
def sha1 (msg : List Nat) : List Nat :=
  let padded := sha1Pad msg
  let s := sha1Chunks padded.length padded
    (1732584193, 4023233417, 2562383102, 271733878, 3285377520)
  u32be s.1 ++ u32be s.2.1 ++ u32be s.2.2.1 ++ u32be s.2.2.2.1 ++ u32be s.2.2.2.2

/-! ## Canonical codec (the `serde_bencode` crate's serializer)

Modelled from the spec: the Canonical Codec `encode` implemented by the
external `serde_bencode` crate — byte strings as `<decimal length>:<raw>`,
integers as `i<digits>e`, lists as `l...e`, dicts as `d...e` with the
entries emitted sorted by raw key bytes (the serializer buffers each
encoded entry and sorts by key before writing). -/

/-- A bencode value: byte string, integer, list, or dict. -/
inductive BValue where
  | bytes (s : List Nat)
  | int (n : Int)
  | list (l : List BValue)
  | dict (d : List (List Nat × BValue))

/-- ASCII decimal digits of a natural number (fuel-driven). -/
def decDigits (fuel n : Nat) : List Nat :=
  match fuel with
  | 0 => []
  | f + 1 => if n < 10 then [48 + n] else decDigits f (n / 10) ++ [48 + n % 10]

/-- ASCII decimal rendering of a natural number. -/
def decRepr (n : Nat) : List Nat := decDigits (n + 1) n

/-- ASCII decimal rendering of an integer (leading `-` when negative). -/
def intRepr (n : Int) : List Nat :=
  if n < 0 then 45 :: decRepr n.natAbs else decRepr n.toNat

/-- Bencode byte-string production `<decimal length>:<raw bytes>`. -/
def encStr (s : List Nat) : List Nat := decRepr s.length ++ 58 :: s

/-- Strict lexicographic byte order on keys. -/
def bytesLt : List Nat → List Nat → Bool
  | [], [] => false
  | [], _ :: _ => true
  | _ :: _, [] => false
  | a :: as, b :: bs => if a < b then true else if b < a then false else bytesLt as bs

/-- Insert an encoded dict entry into a key-sorted entry list. -/
def insertPair (kv : List Nat × List Nat) :
    List (List Nat × List Nat) → List (List Nat × List Nat)
  | [] => [kv]
  | x :: xs => if bytesLt kv.1 x.1 then kv :: x :: xs else x :: insertPair kv xs

/-- Sort encoded dict entries by raw key bytes (insertion sort). -/
def sortPairs (l : List (List Nat × List Nat)) : List (List Nat × List Nat) :=
  l.foldr insertPair []

/-- Emit sorted encoded dict entries: each key as a byte-string
production followed by the already-encoded value. -/
def dictBody : List (List Nat × List Nat) → List Nat
  | [] => []
  | (k, v) :: kvs => encStr k ++ v ++ dictBody kvs

mutual

/-- Bencode encoding; dict entries are sorted by raw key bytes before
emission, as `serde_bencode`'s map serializer does. -/
def bencode : BValue → List Nat
  | .bytes s => encStr s
  | .int n => 105 :: intRepr n ++ [101]
  | .list l => 108 :: bencodeList l ++ [101]
  | .dict d => 100 :: dictBody (sortPairs (encodePairs d)) ++ [101]

/-- Encode the elements of a list production in order. -/
def bencodeList : List BValue → List Nat
  | [] => []
  | v :: vs => bencode v ++ bencodeList vs

/-- Encode each dict entry's value, keeping the raw key bytes. -/
def encodePairs : List (List Nat × BValue) → List (List Nat × List Nat)
  | [] => []
  | (k, v) :: kvs => (k, bencode v) :: encodePairs kvs

end

/-- Byte list of a Lean string literal (ASCII keys and values). -/
def strBytes (s : String) : List Nat := s.toList.map Char.toNat

/-! ## Metainfo model (`src/torrent.rs` / `src/main.rs`) -/

/-- `enum Content`: a single file's length, or a list of files each with a
length and path segments (`#[serde(untagged)]`, flattened into the info
dict as either a `length` or a `files` key). -/
inductive Content where
  | singleFile (length : Nat)
  | multiFile (files : List (Nat × List (List Nat)))
  deriving DecidableEq

/-- `struct Info`: advisory name, piece length, per-piece 20-byte digests
(`Pieces(pub Vec<[u8; 20]>)`), and the flattened content key(s). -/
structure Info where
  name : List Nat
  piece_length : Nat
  pieces : List (List Nat)
  content : Content
  deriving DecidableEq

/-- `struct Torrent`: tracker URL and info section. -/
structure Torrent where
  announce : List Nat
  info : Info
  deriving DecidableEq

/-- `Torrent::content_length`: the single file's length, or the sum of the
file lengths in list order. -/
def Torrent.content_length (t : Torrent) : Nat :=
  match t.info.content with
  | .singleFile length => length
  | .multiFile files => (files.map Prod.fst).sum

/-- Dict entries contributed by the flattened `Content` field: serde emits
`length` for a single file, `files` (a list of `length`/`path` dicts) for
many. -/
def Content.toBEntries : Content → List (List Nat × BValue)
  | .singleFile length => [(strBytes "length", .int length)]
  | .multiFile files =>
      [(strBytes "files", .list (files.map fun f =>
        .dict [(strBytes "length", .int f.1),
               (strBytes "path", .list (f.2.map .bytes))]))]

/-- The info section as the bencode dict serde derives: fields appear in
struct declaration order (`name`, `piece length`, `pieces`, then the
flattened content entries); `Pieces` serializes as the concatenation of
its 20-byte digests.  The encoder, not this projection, establishes
lexicographic key order. -/
def Info.toBValue (i : Info) : BValue :=
  .dict ([(strBytes "name", .bytes i.name),
          (strBytes "piece length", .int i.piece_length),
          (strBytes "pieces", .bytes i.pieces.flatten)] ++ i.content.toBEntries)

/-- `calculate_info_hash` in `src/main.rs`: SHA-1 of the bencode
re-encoding of the info section alone. -/
def calculate_info_hash (t : Torrent) : List Nat :=
  sha1 (bencode t.info.toBValue)

/-! ## Sample metainfo (the repository's `sample.torrent` test fixture) -/

/-- The three 20-byte piece digests of the sample metainfo. -/
def samplePieceHashes : List (List Nat) :=
  [[0xe8, 0x76, 0xf6, 0x7a, 0x2a, 0x88, 0x86, 0xe8, 0xf3, 0x6b, 0x13, 0x67, 0x26, 0xc3, 0x0f, 0xa2, 0x97, 0x03, 0x02, 0x2d],
   [0x6e, 0x22, 0x75, 0xe6, 0x04, 0xa0, 0x76, 0x66, 0x56, 0x73, 0x6e, 0x81, 0xff, 0x10, 0xb5, 0x52, 0x04, 0xad, 0x8d, 0x35],
   [0xf0, 0x0d, 0x93, 0x7a, 0x02, 0x13, 0xdf, 0x19, 0x82, 0xbc, 0x8d, 0x09, 0x72, 0x27, 0xad, 0x9e, 0x90, 0x9a, 0xcc, 0x17]]

/-- The sample 3-piece single-file metainfo (piece length 32768, total
length 92063, name `sample.txt`). -/
def sampleTorrent : Torrent :=
  { announce := strBytes "http://bittorrent-test-tracker.codecrafters.io/announce"
    info :=
      { name := strBytes "sample.txt"
        piece_length := 32768
        pieces := samplePieceHashes
        content := .singleFile 92063 } }

/-- The canonical re-encoding of the sample info section, keys in
lexicographic byte order (`length`, `name`, `piece length`, `pieces`). -/
def sampleInfoBytes : List Nat :=
  strBytes "d6:lengthi92063e4:name10:sample.txt12:piece lengthi32768e6:pieces60:"
    ++ samplePieceHashes.flatten ++ strBytes "e"

/-- The expected 20-byte content identifier,
hex `d69f91e6b2ae4c542468d1073a71d4ea13879a7f`. -/
def sampleInfoHash : List Nat :=
  [0xd6, 0x9f, 0x91, 0xe6, 0xb2, 0xae, 0x4c, 0x54, 0x24, 0x68,
   0xd1, 0x07, 0x3a, 0x71, 0xd4, 0xea, 0x13, 0x87, 0x9a, 0x7f]

/-! ## IEEE-754 binary32 arithmetic (Rust `f32`)

`calculate_block_length` computes its block count through `f32` casts,
division and `f32::ceil`.  A finite nonnegative binary32 value is an exact
nonnegative rational, so the computation is modelled on fractions
represented as numerator/denominator pairs of `Nat`s: casting rounds the
real value to 24 significant bits (round to nearest, ties to even),
division rounds the exact quotient the same way, and `ceil` is exact (the
ceiling of a finite float is always representable).  No value in reach of
these claims approaches binary32 overflow or the subnormal range. -/

/-- Binary exponent `e` of a positive fraction `a / b` (so that
`2^e ≤ a/b < 2^(e+1)`), by fuel-driven doubling/halving; 400 steps cover
the binary32 range. -/
def binExpP (fuel : Nat) (a b : Nat) (e : Int) : Int :=
  match fuel with
  | 0 => e
  | f + 1 =>
      if a < b then binExpP f (2 * a) b (e - 1)
      else if 2 * b ≤ a then binExpP f a (2 * b) (e + 1)
      else e

/-- Round the fraction `a / b` (with `b > 0`) to the nearest integer,
ties to even. -/
def roundMantissa (a b : Nat) : Nat :=
  let n := a / b
  let r := a % b
  if 2 * r < b then n
  else if b < 2 * r then n + 1
  else if n % 2 = 0 then n else n + 1

/-- Round the positive fraction `a / b` to the nearest binary32 value
(ties to even), returned as the exact fraction that float denotes: scale
into `[2^23, 2^24)`, round the 24-bit mantissa, undo the scaling. -/
def roundF32P (a b : Nat) : Nat × Nat :=
  let e := binExpP 400 a b 0
  let m := roundMantissa (a * 2 ^ (23 - e).toNat) (b * 2 ^ (e - 23).toNat)
  (m * 2 ^ (e - 23).toNat, 2 ^ (23 - e).toNat)

/-- Rust's `usize as f32` / `u32 as f32`: round to nearest binary32. -/
def natToF32 (n : Nat) : Nat × Nat :=
  if n = 0 then (0, 1) else roundF32P n 1

/-- IEEE binary32 division of two exactly-represented nonnegative
operands (positive divisor): the correctly rounded exact quotient. -/
def f32Div (x y : Nat × Nat) : Nat × Nat :=
  if x.1 = 0 then (0, 1) else roundF32P (x.1 * y.2) (x.2 * y.1)

/-- `f32::ceil` (exact on finite floats) composed with Rust's saturating
`as u32` cast, on a nonnegative fraction. -/
def f32CeilToU32 (x : Nat × Nat) : Nat :=
  let c := (x.1 + x.2 - 1) / x.2
  if 4294967296 ≤ c then 4294967295 else c

/-! ## Block layout (`src/peer.rs`, `calculate_block_length`) -/

/-- `calculate_block_length` in `src/peer.rs`: the final piece gets length
`content_length − piece_length·(piece_count−1)`; the block count is
computed as `f32::ceil(piece_length as f32 / block_size as f32) as u32`;
the last block length is `piece_length as u32 % block_size`, or
`block_size` when that remainder is zero.  Returns
`(piece_length, block_count, last_block_length)`. -/
def calculate_block_length (t : Torrent) (piece_index block_size : Nat) :
    Nat × Nat × Nat :=
  let piece_count := t.info.pieces.length
  let piece_length :=
    if piece_index = piece_count - 1 then
      t.content_length - t.info.piece_length * (piece_count - 1)
    else t.info.piece_length
  let block_count :=
    f32CeilToU32 (f32Div (natToF32 piece_length) (natToF32 block_size))
  let remainder := piece_length % 4294967296 % block_size
  let last_block_length := if remainder = 0 then block_size else remainder
  (piece_length, block_count, last_block_length)

/-- A single-piece torrent whose one piece is 2^24 + 1 = 16777217 bytes
long — a length not representable in binary32. -/
def bigPieceTorrent : Torrent :=
  { announce := []
    info :=
      { name := []
        piece_length := 16777217
        pieces := [List.replicate 20 0]
        content := .singleFile 16777217 } }

/-- A 3-piece torrent with piece length 32768 and total length 93407, so
the final piece has logical length 93407 − 2·32768 = 27871. -/
def threePieceTorrent : Torrent :=
  { announce := []
    info :=
      { name := []
        piece_length := 32768
        pieces := [List.replicate 20 0, List.replicate 20 1, List.replicate 20 2]
        content := .singleFile 93407 } }

/-! ## Handshake (`src/peer.rs`, `HandShake`) -/

/-- The 19 bytes of the literal `BitTorrent protocol`. -/
def protocolBytes : List Nat := strBytes "BitTorrent protocol"

/-- `struct HandShake`: length byte, protocol literal, reserved bytes,
info hash, peer id. -/
structure HandShake where
  length : Nat
  protocol : List Nat
  reserved : List Nat
  info_hash : List Nat
  peer_id : List Nat
  deriving DecidableEq

/-- `HandShake::new`: length 19, the protocol literal, zero reserved
bytes, the given info hash and the builtin default peer id. -/
def HandShake.new (info_hash : List Nat) : HandShake :=
  { length := 19
    protocol := protocolBytes
    reserved := List.replicate 8 0
    info_hash := info_hash
    peer_id := strBytes "00112233445566778899" }

/-- The `HandShake::peer_id` builder method: replace the peer id. -/
def HandShake.withPeerId (h : HandShake) (peer_id : List Nat) : HandShake :=
  { h with peer_id := peer_id }

/-- `enum ConversionError` in `src/peer.rs`. -/
inductive ConversionError where
  | invalidLength (length : Nat)
  | invalidProtocol (protocol : List Nat)
  deriving DecidableEq

/-- `impl From<HandShake> for [u8; 68]`: length byte, protocol, reserved,
info hash, peer id, in that order. -/
def handshakeToBytes (h : HandShake) : List Nat :=
  h.length :: (h.protocol ++ h.reserved ++ h.info_hash ++ h.peer_id)

/-- `impl TryFrom<[u8; 68]> for HandShake`: reject unless byte 0 is 19,
then unless bytes 1..20 are the protocol literal; on success take reserved
from 20..28, info hash from 28..48 and peer id from 48..68. -/
def handshakeTryFrom (value : List Nat) : Except ConversionError HandShake :=
  if value.getD 0 0 ≠ 19 then .error (.invalidLength (value.getD 0 0))
  else if (value.drop 1).take 19 ≠ protocolBytes then
    .error (.invalidProtocol ((value.drop 1).take 19))
  else
    .ok { length := 19
          protocol := protocolBytes
          reserved := (value.drop 20).take 8
          info_hash := (value.drop 28).take 20
          peer_id := (value.drop 48).take 20 }

/-! ## Session bootstrap and block download (`src/peer.rs`) -/

/-- Outcome of `initiate_download`: success, or an `anyhow` bail at the
first (`expected a Bitfield`) or the second (`expected a Unchoke`)
received message. -/
inductive InitiateResult where
  | ok
  | errBitfield (received : PeerMessage)
  | errUnchoke (received : PeerMessage)
  deriving DecidableEq

/-- `initiate_download` in `src/peer.rs`, modelled on the two messages the
peer sends in this window: the first received message must be a Bitfield
(else bail before Interested is even sent); after sending Interested the
next received message must be UnChoke (else bail). -/
def initiate_download (first second : PeerMessage) : InitiateResult :=
  match first with
  | .bitfield _ =>
    match second with
    | .unChoke => .ok
    | m => .errUnchoke m
  | m => .errBitfield m

/-- Outcome of `download_block`: the updated piece buffer, an `anyhow`
bail on a non-Piece message, or a panic (failed `debug_assert_eq` or
out-of-range slice copy). -/
inductive BlockOutcome where
  | ok (piece : List Nat)
  | err (received : PeerMessage)
  | panic
  deriving DecidableEq

/-- The slice copy `piece[off..off + block.len()].copy_from_slice(&block)`. -/
def writeAt (piece : List Nat) (off : Nat) (block : List Nat) : List Nat :=
  piece.take off ++ block ++ piece.drop (off + block.length)

/-- `download_block` in `src/peer.rs`, modelled on the one message
received after the Request is sent.  The source destructures
`PeerMessage::Piece { piece_index: _, offset, piece }` and builds the
tuple `(piece_index, offset, piece)`, so `block_piece_index` is bound to
the *requested* index — the received piece index is discarded and the
first `debug_assert_eq` compares the request index with itself.  The
offset and length asserts compare against the received values (panicking
in a debug build on mismatch), then the payload is copied at the received
offset. -/
def download_block (piece_index offset length : Nat) (received : PeerMessage)
    (piece : List Nat) : BlockOutcome :=
  match received with
  | .piece _receivedIndex block_offset block =>
      let block_piece_index := piece_index
      if piece_index ≠ block_piece_index then .panic
      else if offset ≠ block_offset then .panic
      else if length ≠ block.length then .panic
      else if block_offset + block.length ≤ piece.length then
        .ok (writeAt piece block_offset block)
      else .panic
  | m => .err m

/-! ## Piece validation (`src/peer.rs`, `validate_piece`) -/

/-- Outcome of `validate_piece`: success, the hash-mismatch bail, or the
panic from indexing `pieces.0[piece_index]` out of bounds. -/
inductive ValidateResult where
  | ok
  | hashMismatch
  | panic
  deriving DecidableEq

/-- `validate_piece` in `src/peer.rs`: look up the stored 20-byte digest
at `piece_index` (panic when out of bounds), hash the supplied bytes with
SHA-1, and bail unless the two digests are equal. -/
def validate_piece (t : Torrent) (piece_index : Nat) (piece : List Nat) :
    ValidateResult :=
  match t.info.pieces[piece_index]? with
  | none => .panic
  | some slice_hash =>
      let current_hash := sha1 piece
      if slice_hash ≠ current_hash then .hashMismatch else .ok

/-- A torrent whose single stored digest is the SHA-1 of the empty byte
string, hex `da39a3ee5e6b4b0d3255bfef95601890afd80709`. -/
def emptyHashTorrent : Torrent :=
  { announce := []
    info :=
      { name := []
        piece_length := 1
        pieces := [[0xda, 0x39, 0xa3, 0xee, 0x5e, 0x6b, 0x4b, 0x0d, 0x32, 0x55,
                    0xbf, 0xef, 0x95, 0x60, 0x18, 0x90, 0xaf, 0xd8, 0x07, 0x09]]
        content := .singleFile 0 } }

/-! ## Compact peer list (`src/tracker.rs`, `PeersVisitor::visit_bytes`) -/

/-- A peer address: IPv4 address as its 32-bit value, and a port. -/
structure SocketAddrV4 where
  ip : Nat
  port : Nat
  deriving DecidableEq

/-- Outcome of the `Peers` deserializer. -/
inductive PeersResult where
  | ok (peers : List SocketAddrV4)
  | err
  deriving DecidableEq

/-- The body of `chunks_exact(6)`: one address per 6-byte record, the
first four bytes a big-endian IPv4 address, the last two a big-endian
port; an incomplete trailing record is dropped. -/
def peersOf : List Nat → List SocketAddrV4
  | a :: b :: c :: d :: e :: f :: rest =>
      { ip := readU32 [a, b, c, d], port := readU16 [e, f] } :: peersOf rest
  | _ => []

/-- `PeersVisitor::visit_bytes` in `src/tracker.rs`: reject byte strings
whose length is not a multiple of 6, else expand the 6-byte records. -/
def visit_bytes (v : List Nat) : PeersResult :=
  if v.length % 6 ≠ 0 then .err else .ok (peersOf v)

/-! ## Tracker info-hash escaping (`src/main.rs`, `url_encode_infohash`) -/

/-- Lowercase hex digit of a value below 16 (the `{byte:02x?}` format). -/
def hexChar (n : Nat) : Char :=
  if n < 10 then Char.ofNat (48 + n) else Char.ofNat (87 + n)

/-- The per-byte encoding in `url_encode_infohash`: digits, ASCII
letters, `-`, `_`, `.` and `~` pass through; every other byte becomes a
percent sign and two lowercase hex digits. -/
def url_encode_byte (b : Nat) : List Char :=
  if (48 ≤ b ∧ b ≤ 57) ∨ (65 ≤ b ∧ b ≤ 90) ∨ (97 ≤ b ∧ b ≤ 122)
      ∨ b = 45 ∨ b = 95 ∨ b = 46 ∨ b = 126 then
    [Char.ofNat b]
  else
    ['%', hexChar (b / 16), hexChar (b % 16)]

/-- `url_encode_infohash` in `src/main.rs`: concatenate the per-byte
encodings in input order. -/
def url_encode_infohash (bs : List Nat) : List Char :=
  (bs.map url_encode_byte).flatten

/-- The claim's character alphabet, stated over characters: decimal
digits, upper- and lowercase letters, `-`, `_`, `.`, `~`. -/
def isUnreserved (c : Char) : Prop :=
  ('0' ≤ c ∧ c ≤ '9') ∨ ('A' ≤ c ∧ c ≤ 'Z') ∨ ('a' ≤ c ∧ c ≤ 'z')
    ∨ c = '-' ∨ c = '_' ∨ c = '.' ∨ c = '~'

instance (c : Char) : Decidable (isUnreserved c) := by
  unfold isUnreserved
  infer_instance

/-- A character is a lowercase hexadecimal digit. -/
def isLowerHex (c : Char) : Prop :=
  ('0' ≤ c ∧ c ≤ '9') ∨ ('a' ≤ c ∧ c ≤ 'f')

instance (c : Char) : Decidable (isLowerHex c) := by
  unfold isLowerHex
  infer_instance

/-- Numeric value of a lowercase hexadecimal digit character. -/
def hexValue (c : Char) : Nat :=
  if c.toNat ≤ 57 then c.toNat - 48 else c.toNat - 87

/-- A concrete well-formed 68-byte handshake reply. -/
def handshakeExample : List Nat :=
  19 :: (protocolBytes ++ List.replicate 8 0
    ++ List.replicate 20 1 ++ List.replicate 20 2)

/-! ## Supporting lemmas -/

theorem protocolBytes_length : protocolBytes.length = 19 := by decide

set_option maxRecDepth 10000 in
/-- Per-byte behaviour of the escaping, checked over all byte values. -/
theorem url_encode_byte_spec : ∀ b, b < 256 →
    (isUnreserved (Char.ofNat b) → url_encode_byte b = [Char.ofNat b])
    ∧ (¬ isUnreserved (Char.ofNat b) →
        url_encode_byte b = ['%', hexChar (b / 16), hexChar (b % 16)]
        ∧ isLowerHex (hexChar (b / 16)) ∧ isLowerHex (hexChar (b % 16))
        ∧ hexValue (hexChar (b / 16)) * 16 + hexValue (hexChar (b % 16)) = b) := by
  decide

theorem readU32_u32be (n : Nat) (t : List Nat) (h : n < 4294967296) :
    readU32 (u32be n ++ t) = n := by
  simp only [u32be, readU32, List.cons_append]
  omega

theorem readU32_u32be_self (n : Nat) (h : n < 4294967296) : readU32 (u32be n) = n := by
  simpa using readU32_u32be n [] h

/-! ## Claim theorems -/

/-- C4: decoding the byte encoding of any peer-wire message (whose `u32`
fields are in range) yields the message back: 1-byte type code, 4-byte
big-endian fixed fields, raw trailing payloads all round-trip. -/
theorem c4_message_roundtrip (m : PeerMessage) (h : wfMessage m) :
    decodeMessage (encodeMessage m) = .ok m := by
  cases m with
  | choke => rfl
  | unChoke => rfl
  | interested => rfl
  | notInterested => rfl
  | «have» pi =>
    simp only [wfMessage] at h
    simp [encodeMessage, decodeMessage, u32be, readU32]
    omega
  | bitfield fs => rfl
  | request a b c =>
    obtain ⟨ha, hb, hc⟩ := h
    simp [encodeMessage, decodeMessage, u32be, readU32]
    omega
  | piece a b p =>
    obtain ⟨ha, hb⟩ := h
    simp [encodeMessage, decodeMessage, u32be, readU32]
    omega
  | cancel a b c =>
    obtain ⟨ha, hb, hc⟩ := h
    simp [encodeMessage, decodeMessage, u32be, readU32]
    omega

/-- Witness for C4 at a concrete message. -/
theorem c4_message_roundtrip_witness :
    decodeMessage (encodeMessage (.request 1 2 3)) = .ok (.request 1 2 3) :=
  c4_message_roundtrip (.request 1 2 3) (by decide)

/-- C10: message decoding is not total — an empty payload (a zero-length
frame such as a keep-alive) or a payload shorter than the decoded variant's
fixed fields makes `TryFrom<&[u8]> for PeerMessage` panic via unchecked
slice indexing instead of returning an error, and `receive_message`
propagates this. -/
theorem c10_decode_short_payload_panics (r4 r12 r8 r12c : List Nat)
    (h4 : r4.length < 4) (h12 : r12.length < 12) (h8 : r8.length < 8)
    (h12c : r12c.length < 12) :
    decodeMessage [] = .panic
    ∧ decodeMessage (4 :: r4) = .panic
    ∧ decodeMessage (6 :: r12) = .panic
    ∧ decodeMessage (7 :: r8) = .panic
    ∧ decodeMessage (8 :: r12c) = .panic
    ∧ receiveMessage [] = .panic := by
  refine ⟨rfl, ?_, ?_, ?_, ?_, rfl⟩ <;>
    · simp only [decodeMessage]
      rw [if_neg (by omega)]

/-- Witness for C10 at concrete short payloads. -/
theorem c10_decode_short_payload_panics_witness :
    decodeMessage [] = .panic
    ∧ decodeMessage (4 :: [0]) = .panic
    ∧ decodeMessage (6 :: [0]) = .panic
    ∧ decodeMessage (7 :: [0]) = .panic
    ∧ decodeMessage (8 :: [0]) = .panic
    ∧ receiveMessage [] = .panic :=
  c10_decode_short_payload_panics [0] [0] [0] [0]
    (by decide) (by decide) (by decide) (by decide)

set_option maxRecDepth 1000000 in
/-- C1: the content identifier is the SHA-1 digest of the canonical
re-encoding of the info section alone, with dict keys emitted in
lexicographic byte order (the canonical bytes open with the `length` key
although the struct declares `name` first); on the sample 3-piece
single-file metainfo (piece length 32768, total length 92063) it is
exactly the 20 bytes with hex rendering
`d69f91e6b2ae4c542468d1073a71d4ea13879a7f`, and the content length is
92063. -/
theorem c1_info_hash_canonical :
    calculate_info_hash sampleTorrent = sampleInfoHash
    ∧ bencode sampleTorrent.info.toBValue = sampleInfoBytes
    ∧ sampleTorrent.content_length = 92063 := by
  decide

set_option maxRecDepth 1000000 in
/-- C2: refuted as a universal statement — the code computes the block
count in binary32 floating point (`f32::ceil(piece_length as f32 /
block_size as f32) as u32`), so for a final piece of logical length
2^24 + 1 = 16777217 with block size 1 it returns block_count 16777216
while the exact ceiling is 16777217, and the invariant
`(block_count − 1) · block_size + last_block_length = piece_length`
that the code itself `debug_assert_eq!`s is violated.  The claim's
concrete example (final piece 27871, block size 16384) does hold. -/
theorem c2_block_layout_f32_failure :
    calculate_block_length bigPieceTorrent 0 1 = (16777217, 16777216, 1)
    ∧ (16777217 + 1 - 1) / 1 = 16777217
    ∧ (16777216 - 1) * 1 + 1 ≠ 16777217
    ∧ calculate_block_length threePieceTorrent 2 16384 = (27871, 2, 11487)
    ∧ (2 - 1) * 16384 + 11487 = 27871 := by
  decide

/-- C3: refuted — `download_block` discards the received piece index (the
match arm binds it to `_` and its first `debug_assert_eq!` compares the
requested index with itself), so a Piece message carrying a different
piece index but the requested offset and length is accepted and its
payload copied into the buffer instead of failing: requesting block
(piece 3, offset 0, length 4) and receiving a Piece for piece 99
succeeds. -/
theorem c3_piece_index_not_checked :
    download_block 3 0 4 (.piece 99 0 [1, 2, 3, 4]) (List.replicate 8 0)
      = .ok [1, 2, 3, 4, 0, 0, 0, 0] := by
  decide

/-- C5: parsing a 68-byte handshake reply fails exactly when byte 0 is
not 19 or bytes 1..20 are not the protocol literal; on success the parsed
handshake's info hash is bytes 28..48 and its peer id bytes 48..68; a
locally constructed handshake serializes to exactly 68 bytes in the order
length byte, protocol literal, 8 reserved zero bytes, info hash, peer
id. -/
theorem c5_handshake_parse_serialize (v : List Nat) (_hv : v.length = 68) :
    ((handshakeTryFrom v).isOk = true
      ↔ (v.getD 0 0 = 19 ∧ (v.drop 1).take 19 = protocolBytes))
    ∧ (∀ hs, handshakeTryFrom v = .ok hs →
        hs.info_hash = (v.drop 28).take 20 ∧ hs.peer_id = (v.drop 48).take 20)
    ∧ (∀ ih pid : List Nat, ih.length = 20 → pid.length = 20 →
        (handshakeToBytes ((HandShake.new ih).withPeerId pid)).length = 68
        ∧ handshakeToBytes ((HandShake.new ih).withPeerId pid)
            = 19 :: (protocolBytes ++ List.replicate 8 0 ++ ih ++ pid)) := by
  refine ⟨?_, ?_, ?_⟩
  · unfold handshakeTryFrom
    by_cases h1 : v.getD 0 0 = 19
    · rw [if_neg (not_not_intro h1)]
      by_cases h2 : (v.drop 1).take 19 = protocolBytes
      · rw [if_neg (not_not_intro h2)]
        exact iff_of_true rfl ⟨h1, h2⟩
      · rw [if_pos h2]
        exact iff_of_false (by simp [Except.isOk, Except.toBool]) fun hh => h2 hh.2
    · rw [if_pos h1]
      exact iff_of_false (by simp [Except.isOk, Except.toBool]) fun hh => h1 hh.1
  · intro hs hok
    unfold handshakeTryFrom at hok
    by_cases h1 : v.getD 0 0 = 19
    · rw [if_neg (not_not_intro h1)] at hok
      by_cases h2 : (v.drop 1).take 19 = protocolBytes
      · rw [if_neg (not_not_intro h2)] at hok
        injection hok with hh
        rw [← hh]
        exact ⟨rfl, rfl⟩
      · rw [if_pos h2] at hok
        cases hok
    · rw [if_pos h1] at hok
      cases hok
  · intro ih pid hih hpid
    refine ⟨?_, rfl⟩
    simp [handshakeToBytes, HandShake.new, HandShake.withPeerId, hih, hpid,
      protocolBytes_length]

/-- Witness for C5: a valid concrete 68-byte reply parses, and a concrete
locally built handshake serializes to 68 bytes. -/
theorem c5_handshake_parse_serialize_witness :
    (handshakeTryFrom handshakeExample).isOk = true
    ∧ (handshakeToBytes
        ((HandShake.new (List.replicate 20 1)).withPeerId (List.replicate 20 2))).length
      = 68 := by
  have h := c5_handshake_parse_serialize handshakeExample (by decide)
  exact ⟨h.1.mpr (by decide), (h.2.2 _ _ (by decide) (by decide)).1⟩

/-- C6: the session bootstrap succeeds exactly when the first received
message is a Bitfield and the message received after sending Interested
is UnChoke; any other variant at either of the two points is a failure,
with no other messages tolerated in this window. -/
theorem c6_bootstrap_strict (first second : PeerMessage) :
    initiate_download first second = .ok
      ↔ ((∃ fs, first = .bitfield fs) ∧ second = .unChoke) := by
  cases first <;> cases second <;> simp [initiate_download]

/-- C7: expanding a compact peer byte-string fails exactly when its
length is not a multiple of 6; otherwise each consecutive 6-byte record
becomes one peer, first 4 bytes a big-endian IPv4 address and last 2 a
big-endian port; the single record `[192,168,1,10,0x1a,0xe1]` decodes to
exactly one peer `192.168.1.10:6881` and a 7-byte blob fails. -/
theorem c7_compact_peer_list (a b c d e f : Nat) (rest v : List Nat) :
    (visit_bytes v = .err ↔ v.length % 6 ≠ 0)
    ∧ peersOf (a :: b :: c :: d :: e :: f :: rest)
        = { ip := a * 16777216 + b * 65536 + c * 256 + d, port := e * 256 + f }
            :: peersOf rest
    ∧ visit_bytes [192, 168, 1, 10, 26, 225]
        = .ok [{ ip := 3232235786, port := 6881 }]
    ∧ visit_bytes [192, 168, 1, 10, 26, 225, 7] = .err := by
  refine ⟨?_, rfl, by decide, by decide⟩
  unfold visit_bytes
  by_cases h : v.length % 6 = 0 <;> simp [h]

/-- C8: piece validation succeeds exactly when the SHA-1 digest of the
supplied data equals, byte for byte, the 20-byte digest stored at
`pieces[piece_index]` (any difference is the hash-mismatch failure),
provided `piece_index` is a valid index into the pieces list. -/
theorem c8_validate_piece_iff (t : Torrent) (i : Nat) (data : List Nat)
    (h : i < t.info.pieces.length) :
    validate_piece t i data = .ok ↔ sha1 data = t.info.pieces.getD i [] := by
  unfold validate_piece
  rw [List.getElem?_eq_getElem h, List.getD_eq_getElem _ _ h]
  by_cases hc : t.info.pieces[i] = sha1 data
  · simp [hc]
  · simp [hc, Ne.symm hc]

set_option maxRecDepth 1000000 in
/-- Witness for C8: the empty byte string validates against a stored
digest equal to SHA-1 of the empty string. -/
theorem c8_validate_piece_iff_witness :
    validate_piece emptyHashTorrent 0 [] = .ok :=
  (c8_validate_piece_iff emptyHashTorrent 0 [] (by decide)).mpr (by decide)

/-- C9: the info-hash escaping maps each byte in `[0-9A-Za-z-_.~]` to
that character unescaped and every other byte to a percent sign followed
by exactly two lowercase hexadecimal digits of its value, and the output
is the concatenation of the per-byte encodings in input order. -/
theorem c9_percent_encoding (bs : List Nat) (b : Nat) (hb : b < 256) :
    url_encode_infohash [] = []
    ∧ url_encode_infohash (b :: bs) = url_encode_byte b ++ url_encode_infohash bs
    ∧ (isUnreserved (Char.ofNat b) → url_encode_byte b = [Char.ofNat b])
    ∧ (¬ isUnreserved (Char.ofNat b) →
        url_encode_byte b = ['%', hexChar (b / 16), hexChar (b % 16)]
        ∧ isLowerHex (hexChar (b / 16)) ∧ isLowerHex (hexChar (b % 16))
        ∧ hexValue (hexChar (b / 16)) * 16 + hexValue (hexChar (b % 16)) = b) :=
  ⟨rfl, rfl, (url_encode_byte_spec b hb).1, (url_encode_byte_spec b hb).2⟩

/-- Witness for C9: byte 0xd6 escapes to `%d6`, and encoding appends in
order. -/
theorem c9_percent_encoding_witness :
    url_encode_infohash [214] = url_encode_byte 214 ++ url_encode_infohash []
    ∧ url_encode_byte 214 = ['%', hexChar (214 / 16), hexChar (214 % 16)] := by
  have h := c9_percent_encoding [] 214 (by decide)
  exact ⟨h.2.1, (h.2.2.2 (by decide)).1⟩

end BitTorrent

